import Mathlib

/-!
# Portfolio script: contact form validation, submission flow and mobile menu

A shallow embedding of `src/portfolio/script.js`.

* A JavaScript string is the list of its UTF-16 code units (`JSString`), so
  `.length` is `List.length`.
* The regular expression literal of `isValidEmail` is embedded as a list of
  pieces run by a small backtracking matcher.
* The DOM is an explicit state (`Page`, `NavState`) threaded through the
  handlers; `setTimeout` appends to a queue of pending timers.
-/

namespace Portfolio

/-! ## Strings -/

/-- A JavaScript string: its UTF-16 code units. -/
abbrev JSString := List Nat

/-- UTF-16 code units of one character. -/
def utf16Char (c : Char) : List Nat :=
  if c.toNat < 65536 then [c.toNat]
  else [55296 + (c.toNat - 65536) / 1024, 56320 + (c.toNat - 65536) % 1024]

/-- The JavaScript string written by a literal. -/
def utf16 (s : String) : JSString :=
  s.toList.flatMap utf16Char

/-- Code unit of `@`. -/
def atSign : Nat := 64

/-- Code unit of `.`. -/
def dot : Nat := 46

/-- The code units matched by `\s` and stripped by `String.prototype.trim`:
    WhiteSpace and LineTerminator of ECMAScript. -/
def isJsWhitespace (c : Nat) : Bool :=
  c == 9 || c == 10 || c == 11 || c == 12 || c == 13 || c == 32 || c == 160 ||
  c == 5760 || (8192 ≤ c && c ≤ 8202) || c == 8232 || c == 8233 || c == 8239 ||
  c == 8287 || c == 12288 || c == 65279

/-- `String.prototype.trim`. -/
def trim (s : JSString) : JSString :=
  ((s.dropWhile isJsWhitespace).reverse.dropWhile isJsWhitespace).reverse

/-! ## Regular expressions -/

/-- One character matcher of a pattern. -/
inductive Atom where
  /-- a literal character, as `@` or `\.` -/
  | lit (c : Nat)
  /-- a negated class `[^...]`, given by the test of the excluded characters -/
  | notIn (excluded : Nat → Bool)

/-- Does the atom match the code unit. -/
def Atom.accepts : Atom → Nat → Bool
  | .lit c, x => x == c
  | .notIn ex, x => !ex x

/-- A quantified atom. -/
inductive Piece where
  /-- exactly one occurrence -/
  | one (a : Atom)
  /-- one or more occurrences, `a+` -/
  | plus (a : Atom)

/-- Backtracking match of `^pieces$` against the whole input: the pattern starts
    at the first code unit and the input must be used up when the pieces are. -/
def matchAnchored : List Piece → JSString → Bool
  | [], s => s.isEmpty
  | Piece.one _ :: _, [] => false
  | Piece.one a :: rest, x :: xs => a.accepts x && matchAnchored rest xs
  | Piece.plus _ :: _, [] => false
  | Piece.plus a :: rest, x :: xs =>
      a.accepts x && (matchAnchored (Piece.plus a :: rest) xs || matchAnchored rest xs)

/-- The excluded set of the class `[^\s@]`. -/
def wsOrAt (c : Nat) : Bool := isJsWhitespace c || c == atSign

/-- The literal `/^[^\s@]+@[^\s@]+\.[^\s@]+$/`. -/
def emailRegex : List Piece :=
  [Piece.plus (Atom.notIn wsOrAt), Piece.one (Atom.lit atSign),
   Piece.plus (Atom.notIn wsOrAt), Piece.one (Atom.lit dot),
   Piece.plus (Atom.notIn wsOrAt)]

/-- `isValidEmail(email)`: `emailRegex.test(email)`. -/
def isValidEmail (email : JSString) : Bool :=
  matchAnchored emailRegex email

/-- The part of a string after its first `@` (empty when there is none). -/
def afterAt (s : JSString) : JSString :=
  (s.dropWhile (fun c => c != atSign)).tail

/-- Spec wording: a part of an address, non-empty, without whitespace and
    without `@`. -/
def AddressPart (p : JSString) : Prop :=
  p ≠ [] ∧ ∀ c ∈ p, isJsWhitespace c = false ∧ c ≠ atSign

/-- Spec wording: `l ++ "@" ++ d ++ "." ++ t` with three address parts. -/
def EmailShape (s : JSString) : Prop :=
  ∃ l d t, s = l ++ [atSign] ++ d ++ [dot] ++ t ∧
    AddressPart l ∧ AddressPart d ∧ AddressPart t

/-- Spec wording: no whitespace, exactly one `@` which is not the first
    character, and after it a `.` that is neither first nor last. -/
def EmailShapeAlt (s : JSString) : Prop :=
  (∀ c ∈ s, isJsWhitespace c = false) ∧ s.count atSign = 1 ∧
  s.head? ≠ some atSign ∧
  ∃ i, 0 < i ∧ i + 1 < (afterAt s).length ∧ (afterAt s)[i]? = some dot

/-! ## The contact form -/

/-- The four controls of the contact form; each has this `id` and `name`. -/
inductive Field where
  | name
  | email
  | subject
  | message
  deriving DecidableEq

/-- What the script reads from the page markup, which is not part of the
    script: for each control its `parentNode`, its `type` and its `tagName`.
    The containers are taken to be separate subtrees of the document. -/
structure Markup (C : Type) where
  parentOf : Field → C
  inputType : Field → String
  tagName : Field → String

/-- The two closures handed to `setTimeout` by the form code. -/
inductive Callback where
  /-- the arrow function of `handleContactFormSubmit`, closed over `originalText` -/
  | completeSubmission (originalText : String)
  /-- the arrow function of `showFormSuccess`, closed over `successDiv` -/
  | removeSuccess (successDiv : Nat)
  deriving DecidableEq

/-- A pending `setTimeout`: the time it is due, in ms, and what it runs. -/
structure Timer where
  due : Nat
  callback : Callback
  deriving DecidableEq

/-- The state of the page the form code reads and writes.
    `value` is what `FormData` and `input.value` yield for a control,
    `errorClass` is whether its `classList` holds `error`, `errorMessages` are
    the texts of the `.error-message` elements of a container in document
    order, `successDivs` are the `.form-success` elements of the form (first
    child first, named by creation number), `created` counts the success
    elements created and `resets` the calls of `contactForm.reset()`. -/
@[ext]
structure Page (C : Type) where
  value : Field → JSString
  defaultValue : Field → JSString
  errorClass : Field → Bool
  errorMessages : C → List String
  buttonText : String
  buttonDisabled : Bool
  successDivs : List Nat
  created : Nat
  resets : Nat
  timers : List Timer
  now : Nat

/-- `setTimeout`: the queue is kept in firing order, earliest first, and a
    new timer goes behind the pending ones that are due no later. -/
def schedule (t : Timer) (q : List Timer) : List Timer :=
  q.takeWhile (fun u => decide (u.due ≤ t.due)) ++
    t :: q.dropWhile (fun u => decide (u.due ≤ t.due))

/-- `existingError.remove()` for the first `.error-message` of the container,
    when there is one. -/
def removeExisting : List String → List String
  | [] => []
  | _ :: rest => rest

variable {C : Type} [DecidableEq C]

/-- `showInputError(input, message)`. -/
def showInputError (m : Markup C) (input : Field) (message : String) (p : Page C) :
    Page C :=
  let p1 := { p with errorClass := Function.update p.errorClass input true }
  let parent := m.parentOf input
  let p2 := { p1 with
    errorMessages :=
      Function.update p1.errorMessages parent (removeExisting (p1.errorMessages parent)) }
  { p2 with
    errorMessages :=
      Function.update p2.errorMessages parent (p2.errorMessages parent ++ [message]) }

/-- The test `!name || name.length < 2` of `validateForm`. -/
def nameFails (name : JSString) : Bool := name.isEmpty || decide (name.length < 2)

/-- The test `!email || !isValidEmail(email)` of `validateForm`. -/
def emailFails (email : JSString) : Bool := email.isEmpty || !isValidEmail email

/-- The test `!subject || subject.length < 2` of `validateForm`. -/
def subjectFails (subject : JSString) : Bool :=
  subject.isEmpty || decide (subject.length < 2)

/-- The test `!message || message.length < 10` of `validateForm`. -/
def messageFails (message : JSString) : Bool :=
  message.isEmpty || decide (message.length < 10)

/-- `validateForm(name, email, subject, message)`: the returned flag and the
    page after the calls of `showInputError`. -/
def validateForm (m : Markup C) (name email subject message : JSString) (p : Page C) :
    Bool × Page C :=
  let isValid := true
  let (isValid, p) :=
    if nameFails name then
      (false, showInputError m Field.name "Name is required (minimum 2 characters)" p)
    else (isValid, p)
  let (isValid, p) :=
    if emailFails email then
      (false, showInputError m Field.email "Valid email is required" p)
    else (isValid, p)
  let (isValid, p) :=
    if subjectFails subject then
      (false, showInputError m Field.subject "Subject is required (minimum 2 characters)" p)
    else (isValid, p)
  let (isValid, p) :=
    if messageFails message then
      (false, showInputError m Field.message "Message is required (minimum 10 characters)" p)
    else (isValid, p)
  (isValid, p)

/-- `validateInput(event)` for `event.target` the given control. -/
def validateInput (m : Markup C) (input : Field) (p : Page C) : Page C :=
  let value := trim (p.value input)
  let p := { p with errorClass := Function.update p.errorClass input false }
  let p :=
    if m.inputType input = "email" then
      if !isValidEmail value then
        showInputError m input "Please enter a valid email address" p
      else p
    else if m.inputType input = "text" then
      if value.length < 2 then
        showInputError m input "This field must be at least 2 characters long" p
      else p
    else p
  if m.tagName input = "TEXTAREA" ∧ value.length < 10 then
    showInputError m input "Message must be at least 10 characters long" p
  else p

/-- `showFormSuccess()`: the new element becomes the first child of the form
    and its removal is scheduled 5000 ms ahead. -/
def showFormSuccess (p : Page C) : Page C :=
  let successDiv := p.created
  let p := { p with created := p.created + 1 }
  let p := { p with successDivs := successDiv :: p.successDivs }
  { p with timers := schedule ⟨p.now + 5000, Callback.removeSuccess successDiv⟩ p.timers }

/-- `contactForm.reset()`. -/
def resetForm (p : Page C) : Page C :=
  { p with value := p.defaultValue, resets := p.resets + 1 }

/-- `handleContactFormSubmit(event)`: the four values are those of the form's
    controls at the time of the call. -/
def handleContactFormSubmit (m : Markup C) (p : Page C) : Page C :=
  let name := p.value Field.name
  let email := p.value Field.email
  let subject := p.value Field.subject
  let message := p.value Field.message
  let (ok, p) := validateForm m name email subject message p
  if !ok then p
  else
    let originalText := p.buttonText
    let p := { p with buttonText := "Sending..." }
    let p := { p with buttonDisabled := true }
    { p with
      timers := schedule ⟨p.now + 2000, Callback.completeSubmission originalText⟩ p.timers }

/-- The body of a timer callback. -/
def runCallback (cb : Callback) (p : Page C) : Page C :=
  match cb with
  | Callback.completeSubmission originalText =>
      let p := showFormSuccess p
      let p := resetForm p
      let p := { p with buttonText := originalText }
      { p with buttonDisabled := false }
  | Callback.removeSuccess successDiv =>
      { p with successDivs := p.successDivs.filter (fun d => d != successDiv) }

/-- The event loop runs the pending timer that is due first, `late` ms after
    it was due; with no pending timer nothing happens. -/
def fireNext (late : Nat) (p : Page C) : Page C :=
  match p.timers with
  | [] => p
  | t :: rest => runCallback t.callback { p with timers := rest, now := max p.now t.due + late }

/-- Time passes, `ms` milliseconds, and the event loop runs no timer
    meanwhile. -/
def elapse (ms : Nat) (p : Page C) : Page C :=
  { p with now := p.now + ms }

/-- Table of the messages of `validateForm`, by field. -/
def formErrorText : Field → String
  | Field.name => "Name is required (minimum 2 characters)"
  | Field.email => "Valid email is required"
  | Field.subject => "Subject is required (minimum 2 characters)"
  | Field.message => "Message is required (minimum 10 characters)"

/-- The test of `validateForm` that belongs to a field. -/
def ruleFails (name email subject message : JSString) : Field → Bool
  | Field.name => nameFails name
  | Field.email => emailFails email
  | Field.subject => subjectFails subject
  | Field.message => messageFails message

/-- A markup with one container per control: text inputs for name and
    subject, an email input and a textarea for the message. -/
def plainMarkup : Markup Field where
  parentOf := id
  inputType := fun f =>
    match f with
    | Field.email => "email"
    | Field.message => "textarea"
    | _ => "text"
  tagName := fun f =>
    match f with
    | Field.message => "TEXTAREA"
    | _ => "INPUT"

/-- A page at rest holding the given values: no error shown, the button
    enabled and labelled `Send Message`, no banner, no pending timer. -/
def restPage (name email subject message : JSString) : Page Field where
  value := fun f =>
    match f with
    | Field.name => name
    | Field.email => email
    | Field.subject => subject
    | Field.message => message
  defaultValue := fun _ => []
  errorClass := fun _ => false
  errorMessages := fun _ => []
  buttonText := "Send Message"
  buttonDisabled := false
  successDivs := []
  created := 0
  resets := 0
  timers := []
  now := 0

/-- A page at rest whose values pass `validateForm`. -/
def validPage : Page Field :=
  restPage (utf16 "Al") (utf16 "al@x.com") (utf16 "Hi") (utf16 "Hello there!")

/-- A page at rest whose four values all fail `validateForm`. -/
def invalidPage : Page Field :=
  restPage (utf16 "A") (utf16 "bad") (utf16 "") (utf16 "short")

/-! ## The mobile menu -/

/-- What the navigation listeners read and write: the `active` class of the
    menu button and of the nav menu, and `document.body.style.overflow`. -/
structure NavState where
  mobileActive : Bool
  navActive : Bool
  overflow : String
  deriving DecidableEq

/-- The click listener of the menu button. -/
def onMobileMenuClick (s : NavState) : NavState :=
  let s := { s with mobileActive := !s.mobileActive }
  let s := { s with navActive := !s.navActive }
  { s with overflow := if s.navActive then "hidden" else "auto" }

/-- The click listener of a nav link. -/
def onNavLinkClick (s : NavState) : NavState :=
  let s := { s with mobileActive := false }
  let s := { s with navActive := false }
  { s with overflow := "auto" }

/-- The click listener of the document, for a target inside or outside the
    nav menu and the menu button. -/
def onDocumentClick (inNavMenu inMobileMenu : Bool) (s : NavState) : NavState :=
  if !inNavMenu && !inMobileMenu then
    let s := { s with mobileActive := false }
    let s := { s with navActive := false }
    { s with overflow := "auto" }
  else s

/-- Where a click lands: on the menu button (not on a nav link), on a nav
    link (not inside the menu button), or outside the nav menu and the menu
    button. A nav link may or may not lie inside the nav menu, which the markup
    decides. -/
inductive Click where
  | menuButton
  | navLink (insideNavMenu : Bool)
  | outside
  deriving DecidableEq

/-- The listeners a click runs, in bubbling order. -/
def click (c : Click) (s : NavState) : NavState :=
  match c with
  | Click.menuButton => onDocumentClick false true (onMobileMenuClick s)
  | Click.navLink insideNavMenu => onDocumentClick insideNavMenu false (onNavLinkClick s)
  | Click.outside => onDocumentClick false false s

/-- A sequence of clicks, first to last. -/
def clicks (cs : List Click) (s : NavState) : NavState :=
  cs.foldl (fun acc c => click c acc) s

/-- The two `active` classes agree. -/
def NavState.Agree (s : NavState) : Prop := s.mobileActive = s.navActive

/-- The classes agree and the overflow of the body follows the nav menu. -/
def NavState.Settled (s : NavState) : Prop :=
  s.mobileActive = s.navActive ∧ s.overflow = if s.navActive then "hidden" else "auto"

/-! ## Matcher lemmas -/

theorem matchAnchored_nil (s : JSString) : matchAnchored [] s = true ↔ s = [] := by
  cases s <;> simp [matchAnchored]

theorem matchAnchored_one (a : Atom) (rest : List Piece) (s : JSString) :
    matchAnchored (Piece.one a :: rest) s = true ↔
      ∃ x xs, s = x :: xs ∧ a.accepts x = true ∧ matchAnchored rest xs = true := by
  cases s with
  | nil => simp [matchAnchored]
  | cons y ys =>
      simp only [matchAnchored, Bool.and_eq_true, List.cons.injEq]
      constructor
      · rintro ⟨h1, h2⟩
        exact ⟨y, ys, ⟨rfl, rfl⟩, h1, h2⟩
      · rintro ⟨x, xs, ⟨rfl, rfl⟩, h1, h2⟩
        exact ⟨h1, h2⟩

theorem matchAnchored_plus (a : Atom) (rest : List Piece) (s : JSString) :
    matchAnchored (Piece.plus a :: rest) s = true ↔
      ∃ pre suf, s = pre ++ suf ∧ pre ≠ [] ∧ (∀ c ∈ pre, a.accepts c = true) ∧
        matchAnchored rest suf = true := by
  induction s with
  | nil =>
      simp only [matchAnchored, Bool.false_eq_true, false_iff]
      rintro ⟨pre, suf, h, hne, -, -⟩
      cases pre with
      | nil => exact hne rfl
      | cons p ps => simp at h
  | cons x xs ih =>
      simp only [matchAnchored, Bool.and_eq_true, Bool.or_eq_true]
      constructor
      · rintro ⟨hx, h | h⟩
        · obtain ⟨pre, suf, rfl, -, hall, hm⟩ := ih.mp h
          refine ⟨x :: pre, suf, rfl, by simp, ?_, hm⟩
          intro c hc
          rcases List.mem_cons.mp hc with rfl | hc
          · exact hx
          · exact hall c hc
        · refine ⟨[x], xs, rfl, by simp, ?_, h⟩
          intro c hc
          rw [List.mem_singleton.mp hc]
          exact hx
      · rintro ⟨pre, suf, h, hne, hall, hm⟩
        cases pre with
        | nil => exact absurd rfl hne
        | cons p ps =>
            simp only [List.cons_append, List.cons.injEq] at h
            obtain ⟨rfl, rfl⟩ := h
            refine ⟨hall _ (List.mem_cons_self _ _), ?_⟩
            cases ps with
            | nil => right; simpa using hm
            | cons q qs =>
                left
                refine ih.mpr ⟨q :: qs, suf, rfl, by simp, ?_, hm⟩
                intro c hc
                exact hall c (List.mem_cons_of_mem _ hc)

theorem notIn_wsOrAt_accepts (c : Nat) :
    (Atom.notIn wsOrAt).accepts c = true ↔ isJsWhitespace c = false ∧ c ≠ atSign := by
  simp [Atom.accepts, wsOrAt]

theorem isValidEmail_iff_shape (s : JSString) : isValidEmail s = true ↔ EmailShape s := by
  unfold isValidEmail emailRegex EmailShape AddressPart
  rw [matchAnchored_plus]
  constructor
  · rintro ⟨l, r1, rfl, hl, hlall, h1⟩
    rw [matchAnchored_one] at h1
    obtain ⟨x, r2, rfl, hx, h2⟩ := h1
    rw [matchAnchored_plus] at h2
    obtain ⟨d, r3, rfl, hd, hdall, h3⟩ := h2
    rw [matchAnchored_one] at h3
    obtain ⟨y, r4, rfl, hy, h4⟩ := h3
    rw [matchAnchored_plus] at h4
    obtain ⟨t, r5, rfl, ht, htall, h5⟩ := h4
    rw [matchAnchored_nil] at h5
    subst h5
    simp only [Atom.accepts, beq_iff_eq] at hx hy
    subst hx hy
    refine ⟨l, d, t, by simp, ⟨hl, ?_⟩, ⟨hd, ?_⟩, ⟨ht, ?_⟩⟩
    · intro c hc; exact (notIn_wsOrAt_accepts c).mp (hlall c hc)
    · intro c hc; exact (notIn_wsOrAt_accepts c).mp (hdall c hc)
    · intro c hc; exact (notIn_wsOrAt_accepts c).mp (htall c hc)
  · rintro ⟨l, d, t, rfl, ⟨hl, hlall⟩, ⟨hd, hdall⟩, ⟨ht, htall⟩⟩
    refine ⟨l, atSign :: (d ++ dot :: t), by simp, hl, ?_, ?_⟩
    · intro c hc; exact (notIn_wsOrAt_accepts c).mpr (hlall c hc)
    rw [matchAnchored_one]
    refine ⟨atSign, d ++ dot :: t, rfl, by simp [Atom.accepts], ?_⟩
    rw [matchAnchored_plus]
    refine ⟨d, dot :: t, rfl, hd, ?_, ?_⟩
    · intro c hc; exact (notIn_wsOrAt_accepts c).mpr (hdall c hc)
    rw [matchAnchored_one]
    refine ⟨dot, t, rfl, by simp [Atom.accepts], ?_⟩
    rw [matchAnchored_plus]
    refine ⟨t, [], by simp, ht, ?_, by simp [matchAnchored]⟩
    intro c hc; exact (notIn_wsOrAt_accepts c).mpr (htall c hc)

/-! ## The two wordings of the address shape agree -/

theorem dropWhile_ne_at_append (l rest : JSString) (h : ∀ c ∈ l, c ≠ atSign) :
    (l ++ atSign :: rest).dropWhile (fun c => c != atSign) = atSign :: rest := by
  induction l with
  | nil => simp [List.dropWhile]
  | cons x xs ih =>
      have hx : x ≠ atSign := h x (List.mem_cons_self _ _)
      have hxs : ∀ c ∈ xs, c ≠ atSign := fun c hc => h c (List.mem_cons_of_mem _ hc)
      have hb : (x != atSign) = true := by simpa using hx
      rw [List.cons_append, List.dropWhile_cons, hb]
      simpa using ih hxs

theorem afterAt_append (l rest : JSString) (h : ∀ c ∈ l, c ≠ atSign) :
    afterAt (l ++ atSign :: rest) = rest := by
  simp [afterAt, dropWhile_ne_at_append l rest h]

theorem split_at_single (s : JSString) (h : s.count atSign = 1) :
    ∃ l r, s = l ++ atSign :: r ∧ (∀ c ∈ l, c ≠ atSign) ∧ (∀ c ∈ r, c ≠ atSign) := by
  induction s with
  | nil => simp at h
  | cons x xs ih =>
      by_cases hx : x = atSign
      · subst hx
        rw [List.count_cons_self] at h
        have h0 : xs.count atSign = 0 := by omega
        refine ⟨[], xs, rfl, by simp, ?_⟩
        intro c hc hEq
        subst hEq
        exact (List.count_eq_zero.mp h0) hc
      · rw [List.count_cons_of_ne (Ne.symm hx)] at h
        obtain ⟨l, r, rfl, hl, hr⟩ := ih h
        refine ⟨x :: l, r, rfl, ?_, hr⟩
        intro c hc
        rcases List.mem_cons.mp hc with rfl | hc
        · exact hx
        · exact hl c hc

theorem emailShape_iff_alt (s : JSString) : EmailShape s ↔ EmailShapeAlt s := by
  constructor
  · rintro ⟨l, d, t, rfl, ⟨hl, hlall⟩, ⟨hd, hdall⟩, ⟨ht, htall⟩⟩
    have hlat : ∀ c ∈ l, c ≠ atSign := fun c hc => (hlall c hc).2
    have hEq : l ++ [atSign] ++ d ++ [dot] ++ t = l ++ atSign :: (d ++ dot :: t) := by simp
    refine ⟨?_, ?_, ?_, ?_⟩
    · intro c hc
      simp only [List.mem_append, List.mem_singleton] at hc
      rcases hc with (((hc | hc) | hc) | hc) | hc
      · exact (hlall c hc).1
      · subst hc; decide
      · exact (hdall c hc).1
      · subst hc; decide
      · exact (htall c hc).1
    · have h1 : l.count atSign = 0 := List.count_eq_zero.mpr (fun hm => hlat _ hm rfl)
      have h2 : d.count atSign = 0 :=
        List.count_eq_zero.mpr (fun hm => (hdall _ hm).2 rfl)
      have h3 : t.count atSign = 0 :=
        List.count_eq_zero.mpr (fun hm => (htall _ hm).2 rfl)
      have h4 : [dot].count atSign = 0 := by decide
      have h5 : [atSign].count atSign = 1 := by decide
      simp only [List.count_append, h1, h2, h3, h4, h5]
    · cases l with
      | nil => exact absurd rfl hl
      | cons a as =>
          simp only [List.cons_append, List.head?_cons, ne_eq, Option.some.injEq]
          exact hlat a (List.mem_cons_self _ _)
    · rw [hEq, afterAt_append l _ hlat]
      refine ⟨d.length, List.length_pos.mpr hd, ?_, ?_⟩
      · have := List.length_pos.mpr ht
        simp only [List.length_append, List.length_cons]
        omega
      · rw [List.getElem?_append_right (le_refl _)]
        simp
  · rintro ⟨hws, hcount, hhead, i, hi0, hi1, hget⟩
    obtain ⟨l, r, rfl, hl, hr⟩ := split_at_single s hcount
    rw [afterAt_append l r hl] at hi1 hget
    have hilt : i < r.length := by omega
    have hri : r[i] = dot := by
      have := List.getElem?_eq_getElem hilt
      rw [this] at hget
      exact Option.some.inj hget
    have hsplit : r = r.take i ++ dot :: r.drop (i + 1) := by
      have h1 : r.drop i = r[i] :: r.drop (i + 1) := List.drop_eq_getElem_cons hilt
      rw [← hri, ← h1, List.take_append_drop]
    refine ⟨l, r.take i, r.drop (i + 1), ?_, ⟨?_, ?_⟩, ⟨?_, ?_⟩, ⟨?_, ?_⟩⟩
    · have : l ++ [atSign] ++ List.take i r ++ [dot] ++ List.drop (i + 1) r
          = l ++ atSign :: (List.take i r ++ dot :: List.drop (i + 1) r) := by simp
      rw [this, ← hsplit]
    · intro hnil
      subst hnil
      exact hhead (by simp)
    · intro c hc
      exact ⟨hws c (List.mem_append_left _ hc), hl c hc⟩
    · intro hnil
      have := congrArg List.length hnil
      simp only [List.length_take, List.length_nil] at this
      omega
    · intro c hc
      have hcr : c ∈ r := List.mem_of_mem_take hc
      exact ⟨hws c (List.mem_append_right _ (List.mem_cons_of_mem _ hcr)), hr c hcr⟩
    · intro hnil
      have := congrArg List.length hnil
      simp only [List.length_drop, List.length_nil] at this
      omega
    · intro c hc
      have hcr : c ∈ r := List.mem_of_mem_drop hc
      exact ⟨hws c (List.mem_append_right _ (List.mem_cons_of_mem _ hcr)), hr c hcr⟩

/-! ## Effects of `showInputError` -/

@[simp]
theorem showInputError_errorClass (m : Markup C) (f g : Field) (msg : String)
    (p : Page C) :
    (showInputError m f msg p).errorClass g = if g = f then true else p.errorClass g := by
  simp [showInputError, Function.update_apply]

@[simp]
theorem showInputError_errorMessages (m : Markup C) (f : Field) (msg : String)
    (p : Page C) (c : C) :
    (showInputError m f msg p).errorMessages c =
      if c = m.parentOf f then removeExisting (p.errorMessages c) ++ [msg]
      else p.errorMessages c := by
  by_cases h : c = m.parentOf f
  · subst h; simp [showInputError]
  · simp [showInputError, Function.update_apply, h]

@[simp]
theorem showInputError_rest (m : Markup C) (f : Field) (msg : String) (p : Page C) :
    (showInputError m f msg p).value = p.value ∧
    (showInputError m f msg p).defaultValue = p.defaultValue ∧
    (showInputError m f msg p).buttonText = p.buttonText ∧
    (showInputError m f msg p).buttonDisabled = p.buttonDisabled ∧
    (showInputError m f msg p).successDivs = p.successDivs ∧
    (showInputError m f msg p).created = p.created ∧
    (showInputError m f msg p).resets = p.resets ∧
    (showInputError m f msg p).timers = p.timers ∧
    (showInputError m f msg p).now = p.now := by
  simp [showInputError]

theorem removeExisting_of_length_le_one (l : List String) (h : l.length ≤ 1) :
    removeExisting l = [] := by
  match l, h with
  | [], _ => rfl
  | [_], _ => rfl

/-! ## `validateForm` -/

theorem validateForm_fst (m : Markup C) (name email subject message : JSString)
    (p : Page C) :
    (validateForm m name email subject message p).1 =
      (!nameFails name && !emailFails email && !subjectFails subject &&
        !messageFails message) := by
  cases h1 : nameFails name <;> cases h2 : emailFails email <;>
    cases h3 : subjectFails subject <;> cases h4 : messageFails message <;>
    simp [validateForm, h1, h2, h3, h4]

theorem validateForm_snd_of_valid (m : Markup C) (name email subject message : JSString)
    (p : Page C) (h : (validateForm m name email subject message p).1 = true) :
    (validateForm m name email subject message p).2 = p := by
  rw [validateForm_fst] at h
  simp only [Bool.and_eq_true, Bool.not_eq_true'] at h
  obtain ⟨⟨⟨h1, h2⟩, h3⟩, h4⟩ := h
  simp [validateForm, h1, h2, h3, h4]

theorem validateForm_snd_rest (m : Markup C) (name email subject message : JSString)
    (p : Page C) :
    (validateForm m name email subject message p).2.value = p.value ∧
    (validateForm m name email subject message p).2.defaultValue = p.defaultValue ∧
    (validateForm m name email subject message p).2.buttonText = p.buttonText ∧
    (validateForm m name email subject message p).2.buttonDisabled = p.buttonDisabled ∧
    (validateForm m name email subject message p).2.successDivs = p.successDivs ∧
    (validateForm m name email subject message p).2.created = p.created ∧
    (validateForm m name email subject message p).2.resets = p.resets ∧
    (validateForm m name email subject message p).2.timers = p.timers ∧
    (validateForm m name email subject message p).2.now = p.now := by
  cases h1 : nameFails name <;> cases h2 : emailFails email <;>
    cases h3 : subjectFails subject <;> cases h4 : messageFails message <;>
    simp [validateForm, h1, h2, h3, h4]

theorem validateForm_snd_errors (m : Markup C) (hinj : Function.Injective m.parentOf)
    (name email subject message : JSString) (p : Page C) (f : Field) :
    (validateForm m name email subject message p).2.errorClass f =
        (p.errorClass f || ruleFails name email subject message f) ∧
    (validateForm m name email subject message p).2.errorMessages (m.parentOf f) =
        if ruleFails name email subject message f then
          removeExisting (p.errorMessages (m.parentOf f)) ++ [formErrorText f]
        else p.errorMessages (m.parentOf f) := by
  cases h1 : nameFails name <;> cases h2 : emailFails email <;>
    cases h3 : subjectFails subject <;> cases h4 : messageFails message <;>
    cases f <;>
    simp [validateForm, ruleFails, formErrorText, h1, h2, h3, h4, hinj.eq_iff]

theorem handleContactFormSubmit_of_invalid (m : Markup C) (p : Page C)
    (h : (validateForm m (p.value Field.name) (p.value Field.email) (p.value Field.subject)
        (p.value Field.message) p).1 = false) :
    handleContactFormSubmit m p =
      (validateForm m (p.value Field.name) (p.value Field.email) (p.value Field.subject)
        (p.value Field.message) p).2 := by
  simp [handleContactFormSubmit, h]

theorem handleContactFormSubmit_of_valid (m : Markup C) (p : Page C)
    (h : (validateForm m (p.value Field.name) (p.value Field.email) (p.value Field.subject)
        (p.value Field.message) p).1 = true) :
    handleContactFormSubmit m p =
      { p with
        buttonText := "Sending..."
        buttonDisabled := true
        timers := schedule ⟨p.now + 2000, Callback.completeSubmission p.buttonText⟩ p.timers } := by
  have h2 := validateForm_snd_of_valid m _ _ _ _ p h
  simp [handleContactFormSubmit, h, h2]

/-! ## The claims -/

/-- C1: `isValidEmail(s)` holds exactly when `s` is `l ++ "@" ++ d ++ "." ++ t`
    with `l`, `d`, `t` non-empty and free of whitespace and of `@`; this is the
    same as: no whitespace, exactly one `@`, not in first place, and after it a
    `.` that is neither first nor last. `a@b.c` is valid; `a@b`, `ab.com` and
    `a @b.c` are not. -/
theorem isValidEmail_iff_emailShape :
    (∀ s : JSString,
      (isValidEmail s = true ↔ EmailShape s) ∧ (EmailShape s ↔ EmailShapeAlt s)) ∧
    isValidEmail (utf16 "a@b.c") = true ∧ isValidEmail (utf16 "a@b") = false ∧
    isValidEmail (utf16 "ab.com") = false ∧ isValidEmail (utf16 "a @b.c") = false :=
  ⟨fun s => ⟨isValidEmail_iff_shape s, emailShape_iff_alt s⟩,
    by decide, by decide, by decide, by decide⟩

/-- C2: `validateForm` returns the conjunction of the four field checks: it
    returns true exactly when none of the four tests fails, so one failing
    field makes it false; on `("Al", "al@x.com", "Hi", "Hello there!")` it
    returns true. -/
theorem validateForm_true_iff_all_pass :
    (∀ (m : Markup C) (name email subject message : JSString) (p : Page C),
      ((validateForm m name email subject message p).1 =
        (!nameFails name && !emailFails email && !subjectFails subject &&
          !messageFails message)) ∧
      ((validateForm m name email subject message p).1 = true ↔
        nameFails name = false ∧ emailFails email = false ∧
          subjectFails subject = false ∧ messageFails message = false)) ∧
    (∀ (m : Markup C) (p : Page C),
      (validateForm m (utf16 "Al") (utf16 "al@x.com") (utf16 "Hi") (utf16 "Hello there!")
        p).1 = true) := by
  refine ⟨fun m name email subject message p => ⟨validateForm_fst _ _ _ _ _ _, ?_⟩, ?_⟩
  · rw [validateForm_fst]
    simp only [Bool.and_eq_true, Bool.not_eq_true']
    tauto
  · intro m p
    rw [validateForm_fst]
    decide

/-- C3: `validateForm` runs all four tests and calls `showInputError` for
    exactly the fields whose test fails, with the message of that field: when
    the controls have separate containers, a field whose test fails ends with
    the `error` class and with its fixed message as the annotation put last in
    its container (in place of the first one there, if any), and a field whose
    test passes keeps its class and its annotations. -/
theorem validateForm_reports_failing_fields (m : Markup C)
    (hinj : Function.Injective m.parentOf)
    (name email subject message : JSString) (p : Page C) (f : Field) :
    (validateForm m name email subject message p).2.errorClass f =
        (p.errorClass f || ruleFails name email subject message f) ∧
    (validateForm m name email subject message p).2.errorMessages (m.parentOf f) =
        if ruleFails name email subject message f then
          removeExisting (p.errorMessages (m.parentOf f)) ++ [formErrorText f]
        else p.errorMessages (m.parentOf f) :=
  validateForm_snd_errors m hinj name email subject message p f

/-- C3 at `("A", "bad", "", "short")`: all four errors are reported. -/
theorem validateForm_reports_failing_fields_witness :
    Function.Injective plainMarkup.parentOf ∧
    ∀ f : Field,
      (validateForm plainMarkup (utf16 "A") (utf16 "bad") (utf16 "") (utf16 "short")
        (restPage [] [] [] [])).2.errorClass f = true ∧
      (validateForm plainMarkup (utf16 "A") (utf16 "bad") (utf16 "") (utf16 "short")
        (restPage [] [] [] [])).2.errorMessages (plainMarkup.parentOf f) =
          [formErrorText f] := by
  refine ⟨fun a b h => h, fun f => ?_⟩
  have h := validateForm_reports_failing_fields plainMarkup (fun a b h => h)
    (utf16 "A") (utf16 "bad") (utf16 "") (utf16 "short") (restPage [] [] [] []) f
  have hf : ruleFails (utf16 "A") (utf16 "bad") (utf16 "") (utf16 "short") f = true := by
    cases f <;> decide
  rw [hf] at h
  refine ⟨by simpa using h.1, ?_⟩
  rw [h.2]
  simp [restPage, removeExisting]

/-- C4: `validateForm` compares the raw `length` and does not trim: each length
    test passes exactly when the untrimmed length reaches the minimum, so a
    name and a subject of two spaces and a message of ten spaces, all of
    trimmed length 0, are accepted. -/
theorem validateForm_checks_untrimmed_length :
    (∀ v : JSString, (nameFails v = false ↔ 2 ≤ v.length) ∧
      (subjectFails v = false ↔ 2 ≤ v.length) ∧ (messageFails v = false ↔ 10 ≤ v.length)) ∧
    (trim (utf16 "  ")).length = 0 ∧ (trim (utf16 "          ")).length = 0 ∧
    nameFails (utf16 "  ") = false ∧ subjectFails (utf16 "  ") = false ∧
    messageFails (utf16 "          ") = false ∧
    (∀ (m : Markup C) (p : Page C),
      (validateForm m (utf16 "  ") (utf16 "al@x.com") (utf16 "  ") (utf16 "          ")
        p).1 = true) := by
  refine ⟨fun v => ?_, by decide, by decide, by decide, by decide, by decide, ?_⟩
  · cases v with
    | nil => simp [nameFails, subjectFails, messageFails]
    | cons x xs => simp [nameFails, subjectFails, messageFails]
  · intro m p
    rw [validateForm_fst]
    decide

/-- C6: when the values of the form fail `validateForm`, the submit handler
    returns right after it: the page is the one `validateForm` left, with the
    button's label and disabled flag, the pending timers, the values, the
    number of resets and the success banners all as before. -/
theorem handleContactFormSubmit_invalid_keeps_state (m : Markup C) (p : Page C)
    (h : (validateForm m (p.value Field.name) (p.value Field.email) (p.value Field.subject)
        (p.value Field.message) p).1 = false) :
    handleContactFormSubmit m p =
      (validateForm m (p.value Field.name) (p.value Field.email) (p.value Field.subject)
        (p.value Field.message) p).2 ∧
    (handleContactFormSubmit m p).buttonText = p.buttonText ∧
    (handleContactFormSubmit m p).buttonDisabled = p.buttonDisabled ∧
    (handleContactFormSubmit m p).timers = p.timers ∧
    (handleContactFormSubmit m p).resets = p.resets ∧
    (handleContactFormSubmit m p).value = p.value ∧
    (handleContactFormSubmit m p).successDivs = p.successDivs ∧
    (handleContactFormSubmit m p).created = p.created ∧
    (handleContactFormSubmit m p).now = p.now := by
  have hr := validateForm_snd_rest m (p.value Field.name) (p.value Field.email)
    (p.value Field.subject) (p.value Field.message) p
  rw [handleContactFormSubmit_of_invalid m p h]
  exact ⟨rfl, hr.2.2.1, hr.2.2.2.1, hr.2.2.2.2.2.2.2.1, hr.2.2.2.2.2.2.1, hr.1,
    hr.2.2.2.2.1, hr.2.2.2.2.2.1, hr.2.2.2.2.2.2.2.2⟩

/-- C6 at the rest page holding `("A", "bad", "", "short")`. -/
theorem handleContactFormSubmit_invalid_keeps_state_witness :
    (validateForm plainMarkup (invalidPage.value Field.name) (invalidPage.value Field.email)
      (invalidPage.value Field.subject) (invalidPage.value Field.message) invalidPage).1
      = false ∧
    (handleContactFormSubmit plainMarkup invalidPage).buttonText = invalidPage.buttonText ∧
    (handleContactFormSubmit plainMarkup invalidPage).buttonDisabled
      = invalidPage.buttonDisabled ∧
    (handleContactFormSubmit plainMarkup invalidPage).timers = invalidPage.timers :=
  have h : (validateForm plainMarkup (invalidPage.value Field.name)
      (invalidPage.value Field.email) (invalidPage.value Field.subject)
      (invalidPage.value Field.message) invalidPage).1 = false := by
    rw [validateForm_fst]; decide
  have t := handleContactFormSubmit_invalid_keeps_state plainMarkup invalidPage h
  ⟨h, t.2.1, t.2.2.1, t.2.2.2.1⟩

theorem schedule_nil (t : Timer) : schedule t [] = [t] := rfl

/-- C7: from a page at rest whose values pass validation, the submit handler
    leaves the button disabled with label `Sending...` and exactly one pending
    timer, due 2000 ms later; when it fires the success banner is in the form,
    the form has been reset once, the button is enabled with the label it had
    before and one timer is pending, due 5000 ms after the banner was shown;
    when that one fires the banner is gone and no timer is left. -/
theorem submit_success_sequence (m : Markup C) (p : Page C)
    (hvalid : (validateForm m (p.value Field.name) (p.value Field.email)
        (p.value Field.subject) (p.value Field.message) p).1 = true)
    (htimers : p.timers = []) (hdivs : p.successDivs = []) (late1 late2 : Nat) :
    ((handleContactFormSubmit m p).buttonDisabled = true ∧
      (handleContactFormSubmit m p).buttonText = "Sending..." ∧
      (handleContactFormSubmit m p).timers =
        [⟨p.now + 2000, Callback.completeSubmission p.buttonText⟩] ∧
      (handleContactFormSubmit m p).successDivs = [] ∧
      (handleContactFormSubmit m p).resets = p.resets) ∧
    ((fireNext late1 (handleContactFormSubmit m p)).now = p.now + 2000 + late1 ∧
      (fireNext late1 (handleContactFormSubmit m p)).successDivs = [p.created] ∧
      (fireNext late1 (handleContactFormSubmit m p)).resets = p.resets + 1 ∧
      (fireNext late1 (handleContactFormSubmit m p)).value = p.defaultValue ∧
      (fireNext late1 (handleContactFormSubmit m p)).buttonDisabled = false ∧
      (fireNext late1 (handleContactFormSubmit m p)).buttonText = p.buttonText ∧
      (fireNext late1 (handleContactFormSubmit m p)).timers =
        [⟨p.now + 2000 + late1 + 5000, Callback.removeSuccess p.created⟩]) ∧
    ((fireNext late2 (fireNext late1 (handleContactFormSubmit m p))).now =
        p.now + 2000 + late1 + 5000 + late2 ∧
      (fireNext late2 (fireNext late1 (handleContactFormSubmit m p))).successDivs = [] ∧
      (fireNext late2 (fireNext late1 (handleContactFormSubmit m p))).timers = [] ∧
      (fireNext late2 (fireNext late1 (handleContactFormSubmit m p))).resets = p.resets + 1 ∧
      (fireNext late2 (fireNext late1 (handleContactFormSubmit m p))).buttonDisabled = false ∧
      (fireNext late2 (fireNext late1 (handleContactFormSubmit m p))).buttonText
        = p.buttonText) := by
  rw [handleContactFormSubmit_of_valid m p hvalid, htimers, schedule_nil]
  have hmax : max p.now (p.now + 2000) = p.now + 2000 := by omega
  have hmax2 : max (p.now + 2000 + late1) (p.now + 2000 + late1 + 5000)
      = p.now + 2000 + late1 + 5000 := by omega
  refine ⟨⟨rfl, rfl, rfl, hdivs, rfl⟩, ?_, ?_⟩
  · simp [fireNext, runCallback, showFormSuccess, resetForm, schedule_nil, hmax, hdivs]
  · simp [fireNext, runCallback, showFormSuccess, resetForm, schedule_nil, hmax, hmax2, hdivs]

/-- C7 at the rest page holding `("Al", "al@x.com", "Hi", "Hello there!")`. -/
theorem submit_success_sequence_witness :
    (validateForm plainMarkup (validPage.value Field.name) (validPage.value Field.email)
      (validPage.value Field.subject) (validPage.value Field.message) validPage).1 = true ∧
    validPage.timers = [] ∧ validPage.successDivs = [] ∧
    (handleContactFormSubmit plainMarkup validPage).timers =
      [⟨validPage.now + 2000, Callback.completeSubmission validPage.buttonText⟩] ∧
    (fireNext 0 (fireNext 0 (handleContactFormSubmit plainMarkup validPage))).successDivs
      = [] ∧
    (fireNext 0 (fireNext 0 (handleContactFormSubmit plainMarkup validPage))).resets
      = validPage.resets + 1 :=
  have h : (validateForm plainMarkup (validPage.value Field.name)
      (validPage.value Field.email) (validPage.value Field.subject)
      (validPage.value Field.message) validPage).1 = true := by
    rw [validateForm_fst]; decide
  have t := submit_success_sequence plainMarkup validPage h rfl rfl 0 0
  ⟨h, rfl, rfl, t.1.2.2.1, t.2.2.2.1, t.2.2.2.2.2.1⟩

/-- C5 as stated fails: on the rest page holding valid values a second call of
    the submit handler while the first timer is pending changes the page, two
    timers are then pending, and after both have fired the form has been reset
    twice, two banners have been created and the button's label is
    `Sending...`. -/
theorem second_submit_while_pending_not_noop :
    (handleContactFormSubmit plainMarkup validPage).timers.length = 1 ∧
    handleContactFormSubmit plainMarkup (handleContactFormSubmit plainMarkup validPage) ≠
      handleContactFormSubmit plainMarkup validPage ∧
    (handleContactFormSubmit plainMarkup
      (handleContactFormSubmit plainMarkup validPage)).timers.length = 2 ∧
    (fireNext 0 (fireNext 0 (handleContactFormSubmit plainMarkup
      (handleContactFormSubmit plainMarkup validPage)))).resets = 2 ∧
    (fireNext 0 (fireNext 0 (handleContactFormSubmit plainMarkup
      (handleContactFormSubmit plainMarkup validPage)))).created = 2 ∧
    (fireNext 0 (fireNext 0 (handleContactFormSubmit plainMarkup
      (handleContactFormSubmit plainMarkup validPage)))).buttonText = "Sending..." ∧
    validPage.buttonText = "Send Message" := by
  refine ⟨by decide, ?_, by decide, by decide, by decide, by decide, by decide⟩
  intro h
  have h2 := congrArg (fun q => q.timers.length) h
  revert h2
  decide

/-- C5, amended: the submit handler has no check for a pending submission;
    what stands against a second submission is the disabled button. From a
    page at rest whose values pass validation the first call disables the
    button, and a second call made all the same `wait` ms later, while the
    first timer is still pending, schedules a second timer due 2000 ms after
    that call, behind the first one, which stays as it was; when the two
    timers have fired the form has been reset twice, two success banners have
    been created and the button is enabled. -/
theorem second_submit_schedules_second_timer (m : Markup C) (p : Page C)
    (hvalid : (validateForm m (p.value Field.name) (p.value Field.email)
        (p.value Field.subject) (p.value Field.message) p).1 = true)
    (htimers : p.timers = []) (wait late1 late2 : Nat) :
    (handleContactFormSubmit m p).buttonDisabled = true ∧
    (elapse wait (handleContactFormSubmit m p)).timers =
      [⟨p.now + 2000, Callback.completeSubmission p.buttonText⟩] ∧
    (handleContactFormSubmit m (elapse wait (handleContactFormSubmit m p))).timers.map
      Timer.due = [p.now + 2000, p.now + wait + 2000] ∧
    (handleContactFormSubmit m (elapse wait (handleContactFormSubmit m p))).timers.head? =
      some ⟨p.now + 2000, Callback.completeSubmission p.buttonText⟩ ∧
    (handleContactFormSubmit m (elapse wait (handleContactFormSubmit m p))).buttonDisabled
      = true ∧
    (fireNext late2 (fireNext late1 (handleContactFormSubmit m
      (elapse wait (handleContactFormSubmit m p))))).resets = p.resets + 2 ∧
    (fireNext late2 (fireNext late1 (handleContactFormSubmit m
      (elapse wait (handleContactFormSubmit m p))))).created = p.created + 2 ∧
    (fireNext late2 (fireNext late1 (handleContactFormSubmit m
      (elapse wait (handleContactFormSubmit m p))))).buttonDisabled = false := by
  have h1 := handleContactFormSubmit_of_valid m p hvalid
  have hvalid2 : (validateForm m
      ((elapse wait (handleContactFormSubmit m p)).value Field.name)
      ((elapse wait (handleContactFormSubmit m p)).value Field.email)
      ((elapse wait (handleContactFormSubmit m p)).value Field.subject)
      ((elapse wait (handleContactFormSubmit m p)).value Field.message)
      (elapse wait (handleContactFormSubmit m p))).1 = true := by
    rw [validateForm_fst] at hvalid ⊢
    rw [h1]
    exact hvalid
  have h2 := handleContactFormSubmit_of_valid m (elapse wait (handleContactFormSubmit m p))
    hvalid2
  rw [h2, h1, htimers, schedule_nil]
  have hle0 : p.now + 2000 ≤ p.now + wait + 2000 := by omega
  have hle1 : p.now + wait + 2000 ≤ max (p.now + wait) (p.now + 2000) + late1 + 5000 := by
    omega
  have hle2 : max (p.now + wait) (p.now + 2000) + late1 ≤
      max (max (p.now + wait) (p.now + 2000) + late1) (p.now + wait + 2000) + late2 := by
    omega
  refine ⟨rfl, rfl, ?_, ?_, rfl, ?_, ?_, ?_⟩ <;>
    simp [elapse, fireNext, runCallback, showFormSuccess, resetForm, schedule, hle0, hle1,
      hle2]

/-- C5, amended, at the rest page holding valid values, the second call made
    500 ms after the first: the timers are due at 2000 and at 2500. -/
theorem second_submit_schedules_second_timer_witness :
    (validateForm plainMarkup (validPage.value Field.name) (validPage.value Field.email)
      (validPage.value Field.subject) (validPage.value Field.message) validPage).1 = true ∧
    validPage.timers = [] ∧
    (handleContactFormSubmit plainMarkup
      (elapse 500 (handleContactFormSubmit plainMarkup validPage))).timers.map Timer.due =
      [validPage.now + 2000, validPage.now + 500 + 2000] ∧
    validPage.now + 2000 = 2000 ∧ validPage.now + 500 + 2000 = 2500 :=
  have h : (validateForm plainMarkup (validPage.value Field.name)
      (validPage.value Field.email) (validPage.value Field.subject)
      (validPage.value Field.message) validPage).1 = true := by
    rw [validateForm_fst]; decide
  ⟨h, rfl, (second_submit_schedules_second_timer plainMarkup validPage h rfl 500 0 0).2.2.1,
    rfl, rfl⟩

/-- C8: `validateInput` judges the trimmed value. For a text input the `error`
    class is on the input after the call exactly when the trimmed length is
    below 2. For a textarea it is there exactly when the trimmed length is below
    10, and then the annotation put last in its container reads
    `Message must be at least 10 characters long`. Both hold whatever the class
    was before, so a class left by an earlier call is gone once the value is
    valid. -/
theorem validateInput_marks_iff_trimmed_short (m : Markup C) (f : Field) (p : Page C) :
    (m.inputType f = "text" → m.tagName f ≠ "TEXTAREA" →
      ((validateInput m f p).errorClass f = true ↔ (trim (p.value f)).length < 2)) ∧
    (m.tagName f = "TEXTAREA" → m.inputType f = "textarea" →
      ((validateInput m f p).errorClass f = true ↔ (trim (p.value f)).length < 10) ∧
      ((trim (p.value f)).length < 10 →
        (validateInput m f p).errorMessages (m.parentOf f) =
          removeExisting (p.errorMessages (m.parentOf f)) ++
            ["Message must be at least 10 characters long"])) := by
  refine ⟨fun htype htag => ?_, fun htag htype => ⟨?_, fun hlen => ?_⟩⟩
  · by_cases hlen : (trim (p.value f)).length < 2 <;>
      simp [validateInput, htype, htag, hlen]
  · by_cases hlen : (trim (p.value f)).length < 10 <;>
      simp [validateInput, htype, htag, hlen]
  · simp [validateInput, htype, htag, hlen]

/-- C8 on the markup with text inputs and a textarea: a name of one letter
    between spaces is marked although it was not before, and a message of
    twelve characters loses the mark it had. -/
theorem validateInput_marks_iff_trimmed_short_witness :
    (plainMarkup.inputType Field.name = "text" ∧ plainMarkup.tagName Field.name ≠ "TEXTAREA" ∧
      (trim ((restPage (utf16 " A ") [] [] []).value Field.name)).length < 2 ∧
      (validateInput plainMarkup Field.name (restPage (utf16 " A ") [] [] [])).errorClass
        Field.name = true) ∧
    (plainMarkup.tagName Field.message = "TEXTAREA" ∧
      plainMarkup.inputType Field.message = "textarea" ∧
      ¬ (trim (validPage.value Field.message)).length < 10 ∧
      ¬ (validateInput plainMarkup Field.message
          { validPage with errorClass := fun _ => true }).errorClass Field.message = true) :=
  ⟨⟨rfl, by decide, by decide,
      ((validateInput_marks_iff_trimmed_short plainMarkup Field.name
        (restPage (utf16 " A ") [] [] [])).1 rfl (by decide)).mpr (by decide)⟩,
    ⟨rfl, rfl, by decide,
      fun h => absurd (((validateInput_marks_iff_trimmed_short plainMarkup Field.message
        { validPage with errorClass := fun _ => true }).2 rfl rfl).1.mp h) (by decide)⟩⟩

/-- C9: on a field whose container holds at most one error annotation,
    `showInputError(field, m)` leaves exactly one, with text `m`, whatever was
    there before; a second call with the same message changes nothing, and a
    call with `m1` followed by a call with `m2` gives the page of the call with
    `m2` alone. -/
theorem showInputError_idempotent_replacing (m : Markup C) (f : Field)
    (msg msg1 msg2 : String) (p : Page C)
    (h : (p.errorMessages (m.parentOf f)).length ≤ 1) :
    (showInputError m f msg p).errorMessages (m.parentOf f) = [msg] ∧
    showInputError m f msg (showInputError m f msg p) = showInputError m f msg p ∧
    showInputError m f msg2 (showInputError m f msg1 p) = showInputError m f msg2 p := by
  have h0 := removeExisting_of_length_le_one _ h
  have key : ∀ a b : String,
      showInputError m f b (showInputError m f a p) = showInputError m f b p := by
    intro a b
    apply Page.ext <;> try simp
    · funext g
      by_cases hg : g = f <;> simp [hg]
    · funext c
      by_cases hc : c = m.parentOf f
      · subst hc
        simp only [showInputError_errorMessages, if_true, h0, List.nil_append]
        rfl
      · simp [hc]
  exact ⟨by simp [h0], key msg msg, key msg1 msg2⟩

/-- C9 on a field that already shows one annotation. -/
theorem showInputError_idempotent_replacing_witness :
    ((showInputError plainMarkup Field.email "old" invalidPage).errorMessages
        (plainMarkup.parentOf Field.email)).length ≤ 1 ∧
    (showInputError plainMarkup Field.email "Valid email is required"
      (showInputError plainMarkup Field.email "old" invalidPage)).errorMessages
        (plainMarkup.parentOf Field.email) = ["Valid email is required"] :=
  ⟨by decide,
    (showInputError_idempotent_replacing plainMarkup Field.email "Valid email is required"
      "a" "b" (showInputError plainMarkup Field.email "old" invalidPage) (by decide)).1⟩

/-! ## Invariant of the mobile menu -/

theorem click_settles (c : Click) (s : NavState) (h : s.Agree) : (click c s).Settled := by
  obtain ⟨a, b, o⟩ := s
  simp only [NavState.Agree] at h
  subst h
  cases c with
  | menuButton =>
      cases a <;> simp [click, onDocumentClick, onMobileMenuClick, NavState.Settled]
  | navLink i =>
      cases i <;> simp [click, onDocumentClick, onNavLinkClick, NavState.Settled]
  | outside => simp [click, onDocumentClick, NavState.Settled]

theorem clicks_settled (cs : List Click) (s : NavState) (h : s.Settled) :
    (clicks cs s).Settled := by
  induction cs generalizing s with
  | nil => exact h
  | cons c cs ih => exact ih (click c s) (click_settles c s h.1)

theorem clicks_settled_of_ne_nil (cs : List Click) (s : NavState) (h : s.Agree)
    (hne : cs ≠ []) : (clicks cs s).Settled := by
  cases cs with
  | nil => exact absurd rfl hne
  | cons c cs => exact clicks_settled cs (click c s) (click_settles c s h)

theorem clicks_agree (cs : List Click) (s : NavState) (h : s.Agree) : (clicks cs s).Agree := by
  cases cs with
  | nil => exact h
  | cons c cs => exact (clicks_settled cs (click c s) (click_settles c s h)).1

theorem double_menu_click_of_settled (s : NavState) (h : s.Settled) :
    click Click.menuButton (click Click.menuButton s) = s := by
  obtain ⟨a, b, o⟩ := s
  obtain ⟨h1, h2⟩ := h
  simp only at h1 h2
  subst h1
  cases a <;> simp [click, onDocumentClick, onMobileMenuClick, h2]

/-- C10 as stated fails: on a fresh page, where the body has no inline
    overflow yet, two clicks on the menu button leave the overflow `auto`: the
    two classes are back but the state is not the one before the clicks. -/
theorem double_menu_click_changes_fresh_page :
    (NavState.mk false false "").mobileActive = false ∧
    (NavState.mk false false "").navActive = false ∧
    click Click.menuButton (click Click.menuButton (clicks [] (NavState.mk false false "")))
      ≠ clicks [] (NavState.mk false false "") ∧
    (click Click.menuButton (click Click.menuButton
      (clicks [] (NavState.mk false false "")))).overflow = "auto" := by
  decide

/-- C10, amended: from a page where neither the menu button nor the nav menu is
    active, after any sequence of clicks (menu button, nav link, outside both)
    the button is active exactly when the nav menu is, and after at least one
    click the overflow of the body is `hidden` when the nav menu is active and
    `auto` otherwise; two clicks on the menu button in a row bring back both
    classes, and bring back the whole state when at least one click came
    before them. -/
theorem menu_classes_agree (s0 : NavState) (hm : s0.mobileActive = false)
    (hn : s0.navActive = false) (cs : List Click) :
    ((clicks cs s0).mobileActive = true ↔ (clicks cs s0).navActive = true) ∧
    (cs ≠ [] →
      ((clicks cs s0).overflow = "hidden" ↔ (clicks cs s0).navActive = true) ∧
      ((clicks cs s0).overflow = "auto" ↔ (clicks cs s0).navActive = false)) ∧
    ((click Click.menuButton (click Click.menuButton (clicks cs s0))).mobileActive =
        (clicks cs s0).mobileActive ∧
      (click Click.menuButton (click Click.menuButton (clicks cs s0))).navActive =
        (clicks cs s0).navActive) ∧
    (cs ≠ [] →
      click Click.menuButton (click Click.menuButton (clicks cs s0)) = clicks cs s0) := by
  have h0 : s0.Agree := by rw [NavState.Agree, hm, hn]
  have hag := clicks_agree cs s0 h0
  refine ⟨by rw [hag], fun hne => ?_, ?_, fun hne =>
    double_menu_click_of_settled _ (clicks_settled_of_ne_nil cs s0 h0 hne)⟩
  · have hs := (clicks_settled_of_ne_nil cs s0 h0 hne).2
    rw [hs]
    cases (clicks cs s0).navActive <;> simp
  · have h2 := click_settles Click.menuButton _ (click_settles Click.menuButton _ hag).1
    generalize clicks cs s0 = s at hag h2 ⊢
    obtain ⟨a, b, o⟩ := s
    simp only [NavState.Agree] at hag
    subst hag
    cases a <;> simp [click, onDocumentClick, onMobileMenuClick]

/-- C10, amended, on a fresh page after one click on the menu button. -/
theorem menu_classes_agree_witness :
    (NavState.mk false false "").mobileActive = false ∧
    (NavState.mk false false "").navActive = false ∧
    [Click.menuButton] ≠ [] ∧
    click Click.menuButton (click Click.menuButton
      (clicks [Click.menuButton] (NavState.mk false false ""))) =
      clicks [Click.menuButton] (NavState.mk false false "") :=
  ⟨rfl, rfl, by decide,
    (menu_classes_agree (NavState.mk false false "") rfl rfl [Click.menuButton]).2.2.2
      (by decide)⟩

end Portfolio
